import Mathlib

/-!
Shallow embedding of `abb_hardware_interface.cpp` (ABBSystemHardware):
the ros2_control lifecycle hooks `on_init`, `export_state_interfaces`,
`export_command_interfaces`, `on_activate`, and the helpers they use.

C++ strings are modelled as `List Char`; `std::map`-style parameter
dictionaries as association lists; `double` values as `ℚ` (only copied and
compared here, never combined arithmetically, so exact rationals are a
faithful carrier); C++ exceptions as explicit outcome constructors.
External collaborators (RWS connection, EGM manager, motion-data
initializer from abb_robot_cpp_utilities) are oracles supplied as
parameters, since their code is outside this repository.
-/

namespace AbbHw

/-- C++ `std::string` model. -/
abbrev Str := List Char

/-- `hardware_interface::HW_IF_POSITION`. -/
def HW_IF_POSITION : Str := "position".data

/-- `hardware_interface::HW_IF_VELOCITY`. -/
def HW_IF_VELOCITY : Str := "velocity".data

/-- Association-list model of the C++ string-keyed parameter maps. -/
abbrev ParamMap := List (Str × Str)

/-- `m.find(k)`: first binding of `k`, if any. -/
def mapFind (m : ParamMap) (k : Str) : Option Str :=
  match m with
  | [] => none
  | (k', v) :: rest => if k' = k then some v else mapFind rest k

/-- `m[k]` on a C++ map: the stored value, or a default-constructed empty
string when the key is absent. -/
def mapIndex (m : ParamMap) (k : Str) : Str :=
  (mapFind m k).getD []

/-- Numeric value of a run of decimal digit characters. -/
def digitsToNat (ds : Str) : Nat :=
  ds.foldl (fun a c => a * 10 + (c.toNat - 48)) 0

/-- Modelled from the C++ standard library: `std::stoi`. Skips leading
whitespace, accepts an optional sign, then parses the longest run of
decimal digits; `none` models the `std::invalid_argument` thrown when no
digits are found. (Conversion stops at the first non-digit, as `stoi`
does.) -/
def cppStoi (s : Str) : Option Int :=
  let s1 := s.dropWhile Char.isWhitespace
  let core : Str → Option Nat := fun t =>
    let ds := t.takeWhile Char.isDigit
    if ds = [] then none else some (digitsToNat ds)
  match s1 with
  | '-' :: rest => (core rest).map (fun n => -(n : Int))
  | '+' :: rest => (core rest).map (fun n => (n : Int))
  | _ => (core s1).map (fun n => (n : Int))

/-- Modelled from the C++ standard library: `std::stod`, restricted to the
plain decimal forms the joint-bound strings of this interface take
(optional sign, integer digits, optional fraction; at least one digit).
`none` models the `std::invalid_argument` thrown when no digits are
found. -/
def cppStod (s : Str) : Option ℚ :=
  let s1 := s.dropWhile Char.isWhitespace
  let core : Str → Option ℚ := fun t =>
    let intDs := t.takeWhile Char.isDigit
    let rest := t.dropWhile Char.isDigit
    let fracDs :=
      match rest with
      | '.' :: r => r.takeWhile Char.isDigit
      | _ => []
    if intDs = [] ∧ fracDs = [] then none
    else some (mkRat
      (digitsToNat intDs * 10 ^ fracDs.length + digitsToNat fracDs)
      (10 ^ fracDs.length))
  match s1 with
  | '-' :: rest => (core rest).map (fun q => -q)
  | '+' :: rest => (core rest).map (fun q => q)
  | _ => (core s1).map (fun q => q)

/-! ## ros2_control `HardwareInfo` inputs -/

/-- `hardware_interface::InterfaceInfo`: one command or state interface of a
joint, with its declared bound strings. -/
structure InterfaceInfo where
  name : Str
  min : Str
  max : Str
deriving DecidableEq

/-- `hardware_interface::ComponentInfo`: one declared joint. -/
structure ComponentInfo where
  name : Str
  jtype : Str
  command_interfaces : List InterfaceInfo
  state_interfaces : List InterfaceInfo
  parameters : ParamMap
deriving DecidableEq

/-- `hardware_interface::HardwareInfo` (the parts `on_init` reads). -/
structure HardwareInfo where
  joints : List ComponentInfo
  hardware_parameters : ParamMap
deriving DecidableEq

/-! ## Robot controller description (abb::robot protobuf messages) -/

/-- `abb::robot::StandardizedJoint` fields set by `on_init`. -/
structure StandardizedJoint where
  standardized_name : Str
  rotating_move : Bool
  lower_joint_bound : ℚ
  upper_joint_bound : ℚ
deriving DecidableEq

/-- `abb::robot::MechanicalUnit_Type` values used here. -/
inductive MechUnitType where
  | TCP_ROBOT
deriving DecidableEq

/-- `abb::robot::MechanicalUnit_Mode` values used here. -/
inductive MechUnitMode where
  | ACTIVATED
deriving DecidableEq

/-- The robot entity of a mechanical units group. -/
structure Robot where
  rtype : MechUnitType
  axes_total : Nat
  mode : MechUnitMode
  standardized_joints : List StandardizedJoint
deriving DecidableEq

/-- `abb::robot::MechanicalUnitGroup`. -/
structure MechanicalUnitsGroup where
  name : Str
  robot : Robot
deriving DecidableEq

/-- RobotWare version header. -/
structure RobotWareVersion where
  major_number : Nat
  minor_number : Nat
  patch_number : Nat
deriving DecidableEq

/-- System indicators: the EGM option flag is the one `on_init` sets. -/
structure SystemIndicators where
  egm : Bool
deriving DecidableEq

/-- `abb::robot::RobotControllerDescription`. -/
structure RobotControllerDescription where
  header : RobotWareVersion
  system_indicators : SystemIndicators
  mechanical_units_groups : List MechanicalUnitsGroup
deriving DecidableEq

/-! ## Motion data mirror -/

/-- One position/velocity pair of `abb::robot::MotionData` (state or
command side of a joint). -/
structure JointValues where
  position : ℚ
  velocity : ℚ
deriving DecidableEq

/-- One joint entry of the motion-data mirror. -/
structure JointMotionData where
  name : Str
  state : JointValues
  command : JointValues
deriving DecidableEq

/-- One mechanical unit of the motion-data mirror. -/
structure UnitMotionData where
  joints : List JointMotionData
deriving DecidableEq

/-- One group of the motion-data mirror. -/
structure GroupMotionData where
  units : List UnitMotionData
deriving DecidableEq

/-- `abb::robot::MotionData`: the group → unit → joint runtime mirror. -/
structure MotionData where
  groups : List GroupMotionData
deriving DecidableEq

/-- All joint entries of the mirror, in traversal order (the order every
loop in the source uses: groups, then units, then joints). -/
def MotionData.allJoints (md : MotionData) : List JointMotionData :=
  md.groups.flatMap (fun g => g.units.flatMap (fun u => u.joints))

/-- `abb::robot::EGMManager::ChannelConfiguration`: a 16-bit port paired
with the group it serves. -/
structure ChannelConfiguration where
  port : Nat
  group : MechanicalUnitsGroup
deriving DecidableEq

instance {ε α : Type} [DecidableEq ε] [DecidableEq α] :
    DecidableEq (Except ε α) := fun x y =>
  match x, y with
  | .error e, .error e' =>
    if h : e = e' then .isTrue (h ▸ rfl)
    else .isFalse (fun hc => h (Except.error.inj hc))
  | .error _, .ok _ => .isFalse (fun hc => Except.noConfusion hc)
  | .ok _, .error _ => .isFalse (fun hc => Except.noConfusion hc)
  | .ok a, .ok a' =>
    if h : a = a' then .isTrue (h ▸ rfl)
    else .isFalse (fun hc => h (Except.ok.inj hc))

/-! ## Interface contract validation (on_init, first loop) -/

/-- The checks the validation loop of `on_init` applies to one joint:
exactly two command interfaces (position then velocity) and exactly two
state interfaces (position then velocity). The C++ performs them as six
early-return tests; their conjunction is this predicate. -/
def validJoint (j : ComponentInfo) : Bool :=
  j.command_interfaces.length = 2 &&
  (j.command_interfaces.get? 0).any (fun ci => ci.name = HW_IF_POSITION) &&
  (j.command_interfaces.get? 1).any (fun ci => ci.name = HW_IF_VELOCITY) &&
  j.state_interfaces.length = 2 &&
  (j.state_interfaces.get? 0).any (fun si => si.name = HW_IF_POSITION) &&
  (j.state_interfaces.get? 1).any (fun si => si.name = HW_IF_VELOCITY)

/-- The validation loop: the first joint failing `validJoint`, if any
(the C++ returns `ERROR` at the first violation). -/
def firstInvalidJoint (joints : List ComponentInfo) : Option ComponentInfo :=
  match joints with
  | [] => none
  | j :: rest => if validJoint j then firstInvalidJoint rest else some j

/-! ## Construction-mode flag -/

def configureViaRwsKey : Str := "configure_via_rws".data
def falseLit : Str := "false".data
def FalseLit : Str := "False".data

/-- The conditional chain of `on_init` deciding `configure_via_rws`:
absent ⇒ true; `"false"` or `"False"` ⇒ false; anything else ⇒ true. -/
def parseConfigureViaRws (v : Option Str) : Bool :=
  match v with
  | none => true
  | some s => if s = falseLit ∨ s = FalseLit then false else true

/-! ## Synthesis-mode description builder (on_init, else branch) -/

def typeKey : Str := "type".data
def revoluteLit : Str := "revolute".data

/-- `is_revolute` for one joint: revolute unless a `type` parameter is
present with a value other than `"revolute"`. -/
def isRevolute (j : ComponentInfo) : Bool :=
  match mapFind j.parameters typeKey with
  | none => true
  | some v => if v ≠ revoluteLit then false else true

/-- Outcome of the per-joint body of the synthesis loop. -/
inductive SynthJointResult where
  | skipped
  | thrown
  | ok (sj : StandardizedJoint)
deriving DecidableEq

/-- The per-joint body of the synthesis loop: scan the command interfaces
for the first one named `position`; parse its `min`/`max` with
`std::stod` (modelled: `none` means the exception propagates); build the
StandardizedJoint. A joint with no position command interface is silently
skipped (the inner loop simply never fires). -/
def buildSynthJoint (j : ComponentInfo) : SynthJointResult :=
  match j.command_interfaces.find? (fun ci => ci.name = HW_IF_POSITION) with
  | none => .skipped
  | some ci =>
    match cppStod ci.min, cppStod ci.max with
    | some mn, some mx =>
      .ok { standardized_name := j.name
            rotating_move := isRevolute j
            lower_joint_bound := mn
            upper_joint_bound := mx }
    | _, _ => .thrown

/-- The synthesis loop over all joints. `.error` models the uncaught
`std::invalid_argument` from `std::stod` escaping `on_init`. -/
def buildSynthJoints (joints : List ComponentInfo) :
    Except Unit (List StandardizedJoint) :=
  match joints with
  | [] => .ok []
  | j :: rest =>
    match buildSynthJoint j with
    | .thrown => .error ()
    | .skipped => buildSynthJoints rest
    | .ok sj => (buildSynthJoints rest).map (fun sjs => sj :: sjs)

/-- The whole synthesis branch: fixed 7.3.2 header, EGM option true, one
unnamed group with one activated TCP robot whose `axes_total` is the
declared joint count. -/
def synthesizeDescription (joints : List ComponentInfo) :
    Except Unit RobotControllerDescription :=
  (buildSynthJoints joints).map (fun sjs =>
    { header := { major_number := 7, minor_number := 3, patch_number := 2 }
      system_indicators := { egm := true }
      mechanical_units_groups :=
        [{ name := []
           robot :=
             { rtype := .TCP_ROBOT
               axes_total := joints.length
               mode := .ACTIVATED
               standardized_joints := sjs } }] })

/-! ## Channel configuration builder (on_init, per-group loop) -/

def egmPortSuffix : Str := "egm_port".data

/-- Per-group port lookup: `stoi(hardware_parameters[group.name + "egm_port"])`.
An absent key reads as the empty string, which `stoi` rejects. -/
def resolvePort (params : ParamMap) (g : MechanicalUnitsGroup) : Option Int :=
  cppStoi (mapIndex params (g.name ++ egmPortSuffix))

/-- `static_cast<uint16_t>` of a C++ `int`: reduction modulo 2^16. -/
def toUint16 (v : Int) : Nat := (v % 65536).toNat

/-- The channel-configuration loop: one configuration per group in
description order; the first group whose port parameter fails to parse
aborts with that group's name (`std::invalid_argument` is caught and
`ERROR` returned after a log naming the group). -/
def buildChannelConfigurations (params : ParamMap)
    (groups : List MechanicalUnitsGroup) :
    Except Str (List ChannelConfiguration) :=
  match groups with
  | [] => .ok []
  | g :: rest =>
    match resolvePort params g with
    | none => .error g.name
    | some v =>
      (buildChannelConfigurations params rest).map
        (fun cfgs => { port := toUint16 v, group := g } :: cfgs)

/-! ## on_init -/

/-- How a lifecycle hook finishes: `CallbackReturn::SUCCESS`,
`CallbackReturn::ERROR`, or a C++ exception propagating out uncaught. -/
inductive Outcome where
  | success
  | errorReturn
  | thrown
deriving DecidableEq

/-- Externally visible side effects of `on_init` (I/O boundary events). -/
inductive Event where
  | rwsConnectAttempt (ip : Str) (port : Int)
deriving DecidableEq

/-- Oracles for the external collaborators `on_init` calls into:
the base-class `on_init`, `establishRWSConnection` (`none` models the
connection failing by exception), `initializeMotionData` (`none` models
the exception its `catch (...)` handler absorbs), and the `EGMManager`
constructor (`false` models the `std::runtime_error` it may throw). -/
structure Env where
  baseInitOk : Bool
  rwsConnect : Str → Int → Option RobotControllerDescription
  motionInit : RobotControllerDescription → Option MotionData
  egmConstruct : List ChannelConfiguration → Bool

/-- Result of `on_init`: the outcome, the boundary events that occurred,
and whatever state the instance retains of each stage (none when the
stage was never reached or failed). -/
structure InitResult where
  outcome : Outcome
  events : List Event
  description : Option RobotControllerDescription
  motionData : Option MotionData
  channels : Option (List ChannelConfiguration)
deriving DecidableEq

def rwsPortKey : Str := "rws_port".data
def rwsIpKey : Str := "rws_ip".data
def noneLit : Str := "None".data

/-- The tail of `on_init` after the description is available: initialize
motion data (catch-all → `ERROR`), build channel configurations
(invalid_argument → `ERROR`), construct the EGMManager
(runtime_error → `ERROR`). -/
def initFromDescription (env : Env) (info : HardwareInfo)
    (desc : RobotControllerDescription) (events : List Event) : InitResult :=
  match env.motionInit desc with
  | none => ⟨.errorReturn, events, some desc, none, none⟩
  | some md =>
    match buildChannelConfigurations info.hardware_parameters
        desc.mechanical_units_groups with
    | .error _ => ⟨.errorReturn, events, some desc, some md, none⟩
    | .ok cfgs =>
      if env.egmConstruct cfgs then
        ⟨.success, events, some desc, some md, some cfgs⟩
      else
        ⟨.errorReturn, events, some desc, some md, some cfgs⟩

/-- `ABBSystemHardware::on_init`. Stages in source order: base-class init,
interface-contract validation (fail-fast), mode selection, description
acquisition (RWS query or synthesis), then `initFromDescription`. In query
mode the source parses `rws_port` with `stoi` (uncaught on failure) before
reading `rws_ip`, and only the literal value `"None"` triggers the
missing-IP `ERROR`; an absent `rws_ip` reads as the empty string and the
connection attempt proceeds. -/
def on_init (env : Env) (info : HardwareInfo) : InitResult :=
  if ¬ env.baseInitOk then ⟨.errorReturn, [], none, none, none⟩
  else
    match firstInvalidJoint info.joints with
    | some _ => ⟨.errorReturn, [], none, none, none⟩
    | none =>
      if parseConfigureViaRws (mapFind info.hardware_parameters configureViaRwsKey) then
        match cppStoi (mapIndex info.hardware_parameters rwsPortKey) with
        | none => ⟨.thrown, [], none, none, none⟩
        | some port =>
          let ip := mapIndex info.hardware_parameters rwsIpKey
          if ip = noneLit then ⟨.errorReturn, [], none, none, none⟩
          else
            match env.rwsConnect ip port with
            | none => ⟨.thrown, [.rwsConnectAttempt ip port], none, none, none⟩
            | some desc =>
              initFromDescription env info desc [.rwsConnectAttempt ip port]
      else
        match synthesizeDescription info.joints with
        | .error _ => ⟨.thrown, [], none, none, none⟩
        | .ok desc => initFromDescription env info desc []

/-! ## on_activate: connection loop and command seeding -/

/-- `NUM_CONNECTION_TRIES` constant of the source. -/
def NUM_CONNECTION_TRIES : Nat := 100

/-- What the `while` loop of `on_activate` produced: whether it broke out
on a received message, how many `waitForMessage(500)` calls it made, and
whether it took the in-loop `return CallbackReturn::ERROR`. -/
structure LoopOutcome where
  connected : Bool
  waits : Nat
  errored : Bool
deriving DecidableEq

/-- One step of `while (rclcpp::ok() && ++counter < NUM_CONNECTION_TRIES)`.
`counter` is the value before the pre-increment; `ok n` models the
`rclcpp::ok()` poll of the iteration entered with counter `n`; `msg n`
models `waitForMessage(500)` on the attempt where the counter holds `n`.
`fuel` only bounds the recursion; the top-level call supplies enough that
the zero-fuel branch is unreachable (the counter strictly grows toward the
bound). -/
def connectGo (ok msg : Nat → Bool) : Nat → Nat → LoopOutcome
  | _, 0 => ⟨false, 0, false⟩
  | counter, fuel + 1 =>
    if ok counter then
      let c := counter + 1
      if c < NUM_CONNECTION_TRIES then
        if msg c then ⟨true, 1, false⟩
        else if c = NUM_CONNECTION_TRIES then ⟨false, 1, true⟩
        else
          let r := connectGo ok msg c fuel
          ⟨r.connected, r.waits + 1, r.errored⟩
      else ⟨false, 0, false⟩
    else ⟨false, 0, false⟩

/-- The connection loop of `on_activate`, from `counter = 0`. -/
def connectLoop (ok msg : Nat → Bool) : LoopOutcome :=
  connectGo ok msg 0 NUM_CONNECTION_TRIES

/-- The seeding pass after the loop: for every joint,
`command.position = state.position` and `command.velocity = 0.0`. -/
def seedJoint (j : JointMotionData) : JointMotionData :=
  { j with command := { position := j.state.position, velocity := 0 } }

def seedCommands (md : MotionData) : MotionData :=
  { groups := md.groups.map (fun g =>
      { units := g.units.map (fun u =>
          { joints := u.joints.map seedJoint }) }) }

/-- Result of `on_activate`: the outcome, the number of
`waitForMessage` calls made, and the motion data the instance holds
afterwards. -/
structure ActivateResult where
  outcome : Outcome
  waits : Nat
  md : MotionData
deriving DecidableEq

/-- `ABBSystemHardware::on_activate`. After the loop (by break or by the
condition turning false) the source unconditionally performs one
`egm_manager_->read(motion_data_)` (modelled by the oracle `readO`, which
stands for the EGM manager refreshing the state side), seeds the commands,
and returns SUCCESS; only the in-loop error branch returns ERROR. -/
def on_activate (ok msg : Nat → Bool) (readO : MotionData → MotionData)
    (md : MotionData) : ActivateResult :=
  let L := connectLoop ok msg
  if L.errored then ⟨.errorReturn, L.waits, md⟩
  else ⟨.success, L.waits, seedCommands (readO md)⟩

/-! ## Joint-name normalization and interface export -/

/-- The marker substring both export paths search for. -/
def markerLit : Str := "joint".data

/-- Bool test: does `pat` lead (start) `s`? -/
def leadsWith : Str → Str → Bool
  | [], _ => true
  | _ :: _, [] => false
  | p :: ps, c :: cs => p = c && leadsWith ps cs

/-- `std::string::find` over the tail positions, accumulating the index. -/
def strFindAux (pat : Str) : Str → Nat → Option Nat
  | [], i => if leadsWith pat [] then some i else none
  | c :: cs, i =>
    if leadsWith pat (c :: cs) then some i else strFindAux pat cs (i + 1)

/-- `s.find(pat)`: index of the first occurrence, `none` for `npos`. -/
def strFind (pat s : Str) : Option Nat := strFindAux pat s 0

/-- The inline normalization of both export loops:
`name.substr(name.find("joint"))`. When the marker is absent, `find`
returns `npos` and `substr(npos)` throws `std::out_of_range`, modelled as
`none`. -/
def normalizeJointName (name : Str) : Option Str :=
  match strFind markerLit name with
  | some pos => some (name.drop pos)
  | none => none

/-- Which `double` field of a joint entry a handle points at. -/
inductive FieldSel where
  | statePos
  | stateVel
  | cmdPos
  | cmdVel
deriving DecidableEq

/-- The address of one `double` inside the motion-data mirror: group,
unit and joint indices plus the field selector. This is the model of the
raw pointer a `StateInterface`/`CommandInterface` stores. -/
structure Loc where
  g : Nat
  u : Nat
  j : Nat
  field : FieldSel
deriving DecidableEq

/-- One exported handle: normalized joint name, interface kind
(`position`/`velocity`), and the storage location it binds. -/
structure Handle where
  joint_name : Str
  kind : Str
  loc : Loc
deriving DecidableEq

/-- Read the `double` a location points at (none when out of range). -/
def readLoc (md : MotionData) (l : Loc) : Option ℚ :=
  match md.groups.get? l.g with
  | none => none
  | some gr =>
    match gr.units.get? l.u with
    | none => none
    | some un =>
      match un.joints.get? l.j with
      | none => none
      | some jd =>
        some (match l.field with
          | .statePos => jd.state.position
          | .stateVel => jd.state.velocity
          | .cmdPos => jd.command.position
          | .cmdVel => jd.command.velocity)

/-- Update position `i` of a list in place (identity when out of range). -/
def setAt {α : Type} (l : List α) (i : Nat) (f : α → α) : List α :=
  match l, i with
  | [], _ => []
  | x :: xs, 0 => f x :: xs
  | x :: xs, i + 1 => x :: setAt xs i f

/-- Overwrite one field of a joint entry. -/
def setField (jd : JointMotionData) (fs : FieldSel) (v : ℚ) : JointMotionData :=
  match fs with
  | .statePos => { jd with state := { jd.state with position := v } }
  | .stateVel => { jd with state := { jd.state with velocity := v } }
  | .cmdPos => { jd with command := { jd.command with position := v } }
  | .cmdVel => { jd with command := { jd.command with velocity := v } }

/-- Write the `double` a location points at (a mutation through the raw
pointer the handle stores). -/
def writeLoc (md : MotionData) (l : Loc) (v : ℚ) : MotionData :=
  { groups := setAt md.groups l.g (fun gr =>
      { units := setAt gr.units l.u (fun un =>
          { joints := setAt un.joints l.j (fun jd => setField jd l.field v) }) }) }

/-- Export loop over one unit's joints. Each joint yields its position
handle then its velocity handle; a name without the marker aborts the
whole export with the `std::out_of_range` (`none`). `f1`/`f2` select the
state or command side of the pair, `g`/`u`/`j0` locate the joints. -/
def exportJointsFrom (f1 f2 : FieldSel) (g u j0 : Nat) :
    List JointMotionData → Option (List Handle)
  | [] => some []
  | jd :: rest =>
    match normalizeJointName jd.name with
    | none => none
    | some nm =>
      (exportJointsFrom f1 f2 g u (j0 + 1) rest).map (fun hs =>
        ⟨nm, HW_IF_POSITION, ⟨g, u, j0, f1⟩⟩ ::
        ⟨nm, HW_IF_VELOCITY, ⟨g, u, j0, f2⟩⟩ :: hs)

/-- Export loop over one group's units. -/
def exportUnitsFrom (f1 f2 : FieldSel) (g u0 : Nat) :
    List UnitMotionData → Option (List Handle)
  | [] => some []
  | un :: rest =>
    match exportJointsFrom f1 f2 g u0 0 un.joints with
    | none => none
    | some hs =>
      (exportUnitsFrom f1 f2 g (u0 + 1) rest).map (fun hs' => hs ++ hs')

/-- Export loop over the groups. -/
def exportGroupsFrom (f1 f2 : FieldSel) (g0 : Nat) :
    List GroupMotionData → Option (List Handle)
  | [] => some []
  | gr :: rest =>
    match exportUnitsFrom f1 f2 g0 0 gr.units with
    | none => none
    | some hs =>
      (exportGroupsFrom f1 f2 (g0 + 1) rest).map (fun hs' => hs ++ hs')

/-- `ABBSystemHardware::export_state_interfaces`: for every joint, a
position and a velocity `StateInterface` bound to
`&joint.state.position` / `&joint.state.velocity`. -/
def export_state_interfaces (md : MotionData) : Option (List Handle) :=
  exportGroupsFrom .statePos .stateVel 0 md.groups

/-- `ABBSystemHardware::export_command_interfaces`: for every joint, a
position and a velocity `CommandInterface` bound to
`&joint.command.position` / `&joint.command.velocity`. -/
def export_command_interfaces (md : MotionData) : Option (List Handle) :=
  exportGroupsFrom .cmdPos .cmdVel 0 md.groups

/-! ## Generic facts about the connection loop -/

/-- The in-loop error branch requires `counter + 1 = NUM_CONNECTION_TRIES`
inside a region guarded by `counter + 1 < NUM_CONNECTION_TRIES`; it can
never fire. -/
theorem connectGo_errored_eq_false (ok msg : Nat → Bool) :
    ∀ fuel counter, (connectGo ok msg counter fuel).errored = false := by
  intro fuel
  induction fuel with
  | zero => intro counter; rfl
  | succ n ih =>
    intro counter
    unfold connectGo
    by_cases h1 : ok counter
    · by_cases h2 : counter + 1 < NUM_CONNECTION_TRIES
      · by_cases h3 : msg (counter + 1)
        · simp [h1, h2, h3]
        · have h4 : ¬(counter + 1 = NUM_CONNECTION_TRIES) := by omega
          simp [h1, h2, h3, h4, ih]
      · simp [h1, h2]
    · simp [h1]

theorem connectLoop_errored_eq_false (ok msg : Nat → Bool) :
    (connectLoop ok msg).errored = false :=
  connectGo_errored_eq_false ok msg NUM_CONNECTION_TRIES 0

/-- Since the error branch is dead, `on_activate` returns SUCCESS no
matter what the channel reports. -/
theorem on_activate_outcome_success (ok msg : Nat → Bool)
    (readO : MotionData → MotionData) (md : MotionData) :
    (on_activate ok msg readO md).outcome = .success := by
  unfold on_activate
  simp [connectLoop_errored_eq_false]

/-! ## Claim theorems -/

/-- **C1.** The claim states 100 bounded-timeout attempts with
`ConnectionError` (an `ERROR` return) when no message is observed by
attempt 100. The code disagrees: `while (rclcpp::ok() && ++counter <
NUM_CONNECTION_TRIES)` admits counters 1..99 only, so `waitForMessage` is
called at most 99 times; a message first available on attempt 100 is never
seen; the `counter == NUM_CONNECTION_TRIES` error branch is dead code; and
on exhaustion the loop falls through to the read/seed path and
`on_activate` returns SUCCESS for every channel behaviour. -/
theorem c1_activation_retry_divergence :
    connectLoop (fun _ => true) (fun _ => false) = ⟨false, 99, false⟩ ∧
    connectLoop (fun _ => true) (fun n => n == 100) = ⟨false, 99, false⟩ ∧
    (∀ ok msg : Nat → Bool, (connectLoop ok msg).errored = false) ∧
    (∀ (ok msg : Nat → Bool) (readO : MotionData → MotionData) (md : MotionData),
      (on_activate ok msg readO md).outcome = .success) :=
  ⟨by decide, by decide, connectLoop_errored_eq_false,
    on_activate_outcome_success⟩

/-- **C7.** Mode-flag parsing is permissive: query mode iff
`configure_via_rws` is absent or any string other than `"false"`/`"False"`;
synthesis mode iff it is present and equals `"false"` or `"False"`. -/
theorem c7_configure_flag_parsing (params : ParamMap) :
    (parseConfigureViaRws (mapFind params configureViaRwsKey) = true ↔
      (mapFind params configureViaRwsKey = none ∨
        ∃ v, mapFind params configureViaRwsKey = some v ∧
          ¬(v = falseLit ∨ v = FalseLit))) ∧
    (parseConfigureViaRws (mapFind params configureViaRwsKey) = false ↔
      ∃ v, mapFind params configureViaRwsKey = some v ∧
        (v = falseLit ∨ v = FalseLit)) := by
  cases h : mapFind params configureViaRwsKey with
  | none => simp [parseConfigureViaRws]
  | some v =>
    by_cases hv : v = falseLit ∨ v = FalseLit
    · simp only [parseConfigureViaRws, hv, if_true]
      constructor
      · constructor
        · intro hc; cases hc
        · rintro (hc | ⟨w, hw, hnw⟩)
          · cases hc
          · cases hw; exact absurd hv hnw
      · exact ⟨fun _ => ⟨v, rfl, hv⟩, fun _ => trivial⟩
    · simp only [parseConfigureViaRws, hv, if_false]
      constructor
      · exact ⟨fun _ => Or.inr ⟨v, rfl, hv⟩, fun _ => trivial⟩
      · constructor
        · intro hc; cases hc
        · rintro ⟨w, hw, hvw⟩
          cases hw; exact absurd hvw hv

/-! ## C2: validation helpers -/

theorem firstInvalidJoint_isSome (joints : List ComponentInfo)
    (h : ∃ j ∈ joints, validJoint j = false) :
    ∃ j', firstInvalidJoint joints = some j' := by
  induction joints with
  | nil => simp at h
  | cons j rest ih =>
    by_cases hj : validJoint j
    · rcases h with ⟨x, hx, hvx⟩
      rcases List.mem_cons.mp hx with rfl | hx'
      · rw [hj] at hvx; cases hvx
      · obtain ⟨j', hj'⟩ := ih ⟨x, hx', hvx⟩
        exact ⟨j', by simp [firstInvalidJoint, hj, hj']⟩
    · exact ⟨j, by simp [firstInvalidJoint, hj]⟩

theorem firstInvalidJoint_eq_none (joints : List ComponentInfo)
    (h : ∀ j ∈ joints, validJoint j = true) :
    firstInvalidJoint joints = none := by
  induction joints with
  | nil => rfl
  | cons j rest ih =>
    have hj := h j (by simp)
    simp only [firstInvalidJoint, hj, if_true]
    exact ih (fun x hx => h x (by simp [hx]))

/-- **C2.** A joint violating the two-command/two-state
position-then-velocity contract makes `on_init` return `ERROR` before any
description building, motion-data allocation, channel construction, or
boundary I/O happens (the result carries no events and no built state);
and when every joint satisfies the contract the validation loop passes. -/
theorem c2_interface_contract (env : Env) (info : HardwareInfo) :
    ((∃ j ∈ info.joints, validJoint j = false) →
      on_init env info = ⟨.errorReturn, [], none, none, none⟩) ∧
    ((∀ j ∈ info.joints, validJoint j = true) →
      firstInvalidJoint info.joints = none) := by
  constructor
  · intro h
    unfold on_init
    by_cases hb : env.baseInitOk
    · obtain ⟨j', hj'⟩ := firstInvalidJoint_isSome info.joints h
      simp [hb, hj']
    · simp [hb]
  · exact firstInvalidJoint_eq_none info.joints

/-! ## Concrete instances used by witnesses and counterexamples -/

/-- Oracle set for concrete runs: base init succeeds, every external
collaborator fails (so any outcome other than their invocation is decided
by the code under test itself). -/
def envW : Env :=
  { baseInitOk := true
    rwsConnect := fun _ _ => none
    motionInit := fun _ => none
    egmConstruct := fun _ => false }

/-- A joint with a single command interface: violates the contract. -/
def jBadW : ComponentInfo :=
  { name := "sixjoint1".data
    jtype := []
    command_interfaces := [⟨HW_IF_POSITION, "0.0".data, "1.0".data⟩]
    state_interfaces := []
    parameters := [] }

def infoBadW : HardwareInfo := ⟨[jBadW], []⟩

theorem c2_witness :
    on_init envW infoBadW = ⟨.errorReturn, [], none, none, none⟩ :=
  (c2_interface_contract envW infoBadW).1 ⟨jBadW, by decide, by decide⟩

/-! ## C4: seeding -/

theorem allJoints_seedCommands (md : MotionData) :
    (seedCommands md).allJoints = md.allJoints.map seedJoint := by
  simp [seedCommands, MotionData.allJoints, List.flatMap_map,
    List.map_flatMap]

theorem seedCommands_allJoints (md : MotionData) :
    ∀ j ∈ (seedCommands md).allJoints,
      j.command.position = j.state.position ∧ j.command.velocity = 0 := by
  intro j hj
  rw [allJoints_seedCommands] at hj
  obtain ⟨x, _, rfl⟩ := List.mem_map.mp hj
  simp [seedJoint]

/-- **C4.** After `on_activate` finishes with SUCCESS, every joint entry
of the motion-data mirror has `command.position = state.position` (the
position the seeding read observed) and `command.velocity = 0`. -/
theorem c4_activation_seeding (ok msg : Nat → Bool)
    (readO : MotionData → MotionData) (md : MotionData)
    (h : (on_activate ok msg readO md).outcome = .success) :
    ∀ j ∈ ((on_activate ok msg readO md).md).allJoints,
      j.command.position = j.state.position ∧ j.command.velocity = 0 := by
  unfold on_activate
  simp only [connectLoop_errored_eq_false, Bool.false_eq_true, if_false]
  exact seedCommands_allJoints (readO md)

/-- Mirror with one joint whose observed state position is 0.7. -/
def mdSeedW : MotionData :=
  ⟨[⟨[⟨[⟨"joint1".data, ⟨mkRat 7 10, 2⟩, ⟨5, 9⟩⟩]⟩]⟩]⟩

theorem c4_witness :
    (⟨"joint1".data, ⟨mkRat 7 10, 2⟩, ⟨mkRat 7 10, 0⟩⟩ : JointMotionData).command.position =
      (⟨"joint1".data, ⟨mkRat 7 10, 2⟩, ⟨mkRat 7 10, 0⟩⟩ : JointMotionData).state.position ∧
    (⟨"joint1".data, ⟨mkRat 7 10, 2⟩, ⟨mkRat 7 10, 0⟩⟩ : JointMotionData).command.velocity = 0 :=
  c4_activation_seeding (fun _ => true) (fun _ => true) id mdSeedW
    (by decide) _ (by decide)

/-! ## C3: synthesis-mode description -/

/-- Decidable side condition: the joint has a position command interface
and both of its bound strings parse. -/
def boundsParse (j : ComponentInfo) : Bool :=
  (j.command_interfaces.find? (fun ci => ci.name = HW_IF_POSITION)).any
    (fun ci => (cppStod ci.min).isSome && (cppStod ci.max).isSome)

/-- Follows the spec's words (the expected record C3 compares against):
the StandardizedJoint for a declared joint is named after the joint,
marked revolute per the `type` parameter, and carries the parsed
min/max of the joint's position command interface as lower/upper
bounds. -/
def specSynthJoint (j : ComponentInfo) : StandardizedJoint :=
  { standardized_name := j.name
    rotating_move := isRevolute j
    lower_joint_bound :=
      ((j.command_interfaces.find? (fun ci => ci.name = HW_IF_POSITION)).bind
        (fun ci => cppStod ci.min)).getD 0
    upper_joint_bound :=
      ((j.command_interfaces.find? (fun ci => ci.name = HW_IF_POSITION)).bind
        (fun ci => cppStod ci.max)).getD 0 }

theorem buildSynthJoints_eq_map (joints : List ComponentInfo)
    (h : ∀ j ∈ joints, boundsParse j = true) :
    buildSynthJoints joints = .ok (joints.map specSynthJoint) := by
  induction joints with
  | nil => rfl
  | cons j rest ih =>
    have hj := h j (by simp)
    unfold boundsParse at hj
    cases hf : j.command_interfaces.find? (fun ci => ci.name = HW_IF_POSITION) with
    | none => rw [hf] at hj; cases hj
    | some ci =>
      rw [hf] at hj
      simp only [Option.any_some, Bool.and_eq_true,
        Option.isSome_iff_exists] at hj
      obtain ⟨⟨mn, hmn⟩, ⟨mx, hmx⟩⟩ := hj
      have hrest := ih (fun x hx => h x (by simp [hx]))
      simp only [buildSynthJoints, buildSynthJoint, hf, hmn, hmx, hrest,
        Except.map, List.map_cons]
      simp [specSynthJoint, hf, hmn, hmx]

/-- **C3.** In synthesis mode, under the side conditions the validation
stage guarantees (every joint's position command interface present with
parsable bounds), the built description has the fixed 7.3.2 header, the
EGM feature flag true, and exactly one mechanical-units group holding one
activated TCP robot with `axes_total` equal to the declared joint count
and one StandardizedJoint per declared joint in declaration order, each
matching `specSynthJoint`; and a joint is marked revolute iff its `type`
parameter is absent or equals `"revolute"`. -/
theorem c3_synthesis_description (joints : List ComponentInfo)
    (h : ∀ j ∈ joints, boundsParse j = true) :
    synthesizeDescription joints = .ok
      { header := ⟨7, 3, 2⟩
        system_indicators := ⟨true⟩
        mechanical_units_groups :=
          [⟨[], ⟨.TCP_ROBOT, joints.length, .ACTIVATED,
            joints.map specSynthJoint⟩⟩] } ∧
    (∀ j : ComponentInfo, isRevolute j = true ↔
      (mapFind j.parameters typeKey = none ∨
        mapFind j.parameters typeKey = some revoluteLit)) := by
  constructor
  · unfold synthesizeDescription
    rw [buildSynthJoints_eq_map joints h]
    rfl
  · intro j
    unfold isRevolute
    cases ht : mapFind j.parameters typeKey with
    | none => simp
    | some v =>
      by_cases hv : v = revoluteLit
      · simp [hv]
      · simp [hv]

/-- The spec's synthesis example, joint 1: revolute by default, bounds
strings "-1.0" and "1.0". -/
def j1W : ComponentInfo :=
  { name := "j1".data
    jtype := []
    command_interfaces :=
      [⟨HW_IF_POSITION, "-1.0".data, "1.0".data⟩, ⟨HW_IF_VELOCITY, [], []⟩]
    state_interfaces :=
      [⟨HW_IF_POSITION, [], []⟩, ⟨HW_IF_VELOCITY, [], []⟩]
    parameters := [] }

/-- The spec's synthesis example, joint 2: prismatic, bounds "0.0" and
"0.5". -/
def j2W : ComponentInfo :=
  { name := "j2".data
    jtype := []
    command_interfaces :=
      [⟨HW_IF_POSITION, "0.0".data, "0.5".data⟩, ⟨HW_IF_VELOCITY, [], []⟩]
    state_interfaces :=
      [⟨HW_IF_POSITION, [], []⟩, ⟨HW_IF_VELOCITY, [], []⟩]
    parameters := [(typeKey, "prismatic".data)] }

theorem c3_witness :
    synthesizeDescription [j1W, j2W] = .ok
      { header := ⟨7, 3, 2⟩
        system_indicators := ⟨true⟩
        mechanical_units_groups :=
          [⟨[], ⟨.TCP_ROBOT, 2, .ACTIVATED,
            [⟨"j1".data, true, -1, 1⟩,
             ⟨"j2".data, false, 0, mkRat 1 2⟩]⟩⟩] } := by
  rw [(c3_synthesis_description [j1W, j2W] (by decide)).1]
  decide

/-! ## C5: unparsable bounds throw instead of returning ERROR -/

/-- A contract-valid joint whose position min bound is unparsable. -/
def jC5 : ComponentInfo :=
  { name := "joint1".data
    jtype := []
    command_interfaces :=
      [⟨HW_IF_POSITION, "abc".data, "1.0".data⟩, ⟨HW_IF_VELOCITY, [], []⟩]
    state_interfaces :=
      [⟨HW_IF_POSITION, [], []⟩, ⟨HW_IF_VELOCITY, [], []⟩]
    parameters := [] }

def infoC5 : HardwareInfo := ⟨[jC5], [(configureViaRwsKey, falseLit)]⟩

/-- **C5 counterexample.** With synthesis mode selected and a joint whose
min bound is `"abc"`, `on_init` ends in the uncaught-exception outcome,
not the `ERROR` return the claim requires: the `std::stod` calls of the
synthesis loop sit outside every try block of `on_init`. -/
theorem c5_counterexample :
    (on_init envW infoC5).outcome = .thrown ∧
    (on_init envW infoC5).outcome ≠ .errorReturn := by decide

theorem buildSynthJoints_error (joints : List ComponentInfo)
    (h : ∃ j ∈ joints, ∃ ci,
      j.command_interfaces.find? (fun c => c.name = HW_IF_POSITION) = some ci ∧
      (cppStod ci.min = none ∨ cppStod ci.max = none)) :
    buildSynthJoints joints = .error () := by
  induction joints with
  | nil => simp at h
  | cons j rest ih =>
    rcases h with ⟨x, hx, ci, hci, hbad⟩
    rcases List.mem_cons.mp hx with rfl | hx'
    · have hthrown : buildSynthJoint x = .thrown := by
        rcases hbad with hb | hb
        · simp [buildSynthJoint, hci, hb]
        · cases hmn : cppStod ci.min with
          | none => simp [buildSynthJoint, hci, hmn]
          | some mn => simp [buildSynthJoint, hci, hmn, hb]
      simp [buildSynthJoints, hthrown]
    · have hrest := ih ⟨x, hx', ci, hci, hbad⟩
      cases hbj : buildSynthJoint j with
      | thrown => simp [buildSynthJoints, hbj]
      | skipped => simp [buildSynthJoints, hbj, hrest]
      | ok sj => simp [buildSynthJoints, hbj, hrest, Except.map]

/-- **C5 (amended).** In synthesis mode, a joint whose position
command-interface min or max bound string is not parsable makes `on_init`
propagate the uncaught `std::invalid_argument` from `std::stod` (the
`thrown` outcome) rather than returning `ERROR`. -/
theorem c5_amended_uncaught (env : Env) (info : HardwareInfo)
    (hbase : env.baseInitOk = true)
    (hvalid : firstInvalidJoint info.joints = none)
    (hmode : parseConfigureViaRws
      (mapFind info.hardware_parameters configureViaRwsKey) = false)
    (hbad : ∃ j ∈ info.joints, ∃ ci,
      j.command_interfaces.find? (fun c => c.name = HW_IF_POSITION) = some ci ∧
      (cppStod ci.min = none ∨ cppStod ci.max = none)) :
    on_init env info = ⟨.thrown, [], none, none, none⟩ := by
  unfold on_init
  simp [hbase, hvalid, hmode, synthesizeDescription,
    buildSynthJoints_error info.joints hbad, Except.map]

theorem c5_witness :
    on_init envW infoC5 = ⟨.thrown, [], none, none, none⟩ :=
  c5_amended_uncaught envW infoC5 (by decide) (by decide) (by decide)
    ⟨jC5, by decide,
      ⟨HW_IF_POSITION, "abc".data, "1.0".data⟩, by decide,
      Or.inl (by decide)⟩

/-! ## C6: unset rws_ip does not stop the connection attempt -/

/-- Query-mode configuration with `rws_ip` absent (and `rws_port`
parsable, so the earlier `stoi` does not throw first). -/
def infoC6 : HardwareInfo := ⟨[], [(rwsPortKey, "80".data)]⟩

/-- **C6 counterexample.** With `rws_ip` absent, the map index defaults
to the empty string, the `"None"` guard does not fire, and `on_init`
proceeds to attempt the RWS connection (an event is recorded) instead of
returning `ERROR` beforehand. -/
theorem c6_counterexample :
    (on_init envW infoC6).events = [.rwsConnectAttempt [] 80] ∧
    (on_init envW infoC6).outcome ≠ .errorReturn := by decide

theorem initFromDescription_events (env : Env) (info : HardwareInfo)
    (desc : RobotControllerDescription) (events : List Event) :
    (initFromDescription env info desc events).events = events := by
  unfold initFromDescription
  cases env.motionInit desc with
  | none => rfl
  | some md =>
    cases buildChannelConfigurations info.hardware_parameters
        desc.mechanical_units_groups with
    | error e => rfl
    | ok cfgs =>
      by_cases h : env.egmConstruct cfgs <;> simp [h]

/-- **C6 (amended).** In query mode (with `rws_port` parsing to `p`),
`on_init` returns `ERROR` before any connection attempt precisely when the
`rws_ip` parameter reads as the literal `"None"`; for every other value —
including the empty string an absent parameter defaults to — the RWS
connection attempt proceeds with that value. -/
theorem c6_amended_none_ip (env : Env) (info : HardwareInfo) (p : Int)
    (hbase : env.baseInitOk = true)
    (hvalid : firstInvalidJoint info.joints = none)
    (hmode : parseConfigureViaRws
      (mapFind info.hardware_parameters configureViaRwsKey) = true)
    (hport : cppStoi (mapIndex info.hardware_parameters rwsPortKey) = some p) :
    (mapIndex info.hardware_parameters rwsIpKey = noneLit →
      on_init env info = ⟨.errorReturn, [], none, none, none⟩) ∧
    (mapIndex info.hardware_parameters rwsIpKey ≠ noneLit →
      (on_init env info).events =
        [.rwsConnectAttempt (mapIndex info.hardware_parameters rwsIpKey) p]) := by
  constructor
  · intro hip
    unfold on_init
    simp [hbase, hvalid, hmode, hport, hip]
  · intro hip
    unfold on_init
    simp only [hbase, hvalid, hmode, hport, not_true_eq_false,
      Bool.false_eq_true, if_false, if_true]
    rw [if_neg hip]
    cases hc : env.rwsConnect (mapIndex info.hardware_parameters rwsIpKey) p with
    | none => rfl
    | some desc => exact initFromDescription_events env info desc _

/-- Query-mode configuration with `rws_ip` set to the literal `"None"`. -/
def infoC6n : HardwareInfo :=
  ⟨[], [(rwsPortKey, "80".data), (rwsIpKey, noneLit)]⟩

theorem c6_witness :
    on_init envW infoC6n = ⟨.errorReturn, [], none, none, none⟩ :=
  (c6_amended_none_ip envW infoC6n 80 (by decide) (by decide) (by decide)
    (by decide)).1 (by decide)

/-! ## C8: channel configurations truncate ports to 16 bits -/

def grpW : MechanicalUnitsGroup :=
  ⟨"g".data, ⟨.TCP_ROBOT, 1, .ACTIVATED, []⟩⟩

/-- **C8 counterexample.** A port parameter of `"70000"` parses to the
integer 70000 but the built configuration carries port 4464
(70000 mod 2^16): the port is not "equal to the integer parse" as the
claim states, because of the `static_cast<uint16_t>`. -/
theorem c8_counterexample :
    buildChannelConfigurations
      [(("g".data ++ egmPortSuffix), "70000".data)] [grpW] =
      .ok [⟨4464, grpW⟩] ∧
    cppStoi ("70000".data) = some 70000 ∧ (4464 : Nat) ≠ 70000 := by decide

theorem buildChannelConfigurations_ok (params : ParamMap)
    (groups : List MechanicalUnitsGroup)
    (h : ∀ g ∈ groups, (resolvePort params g).isSome) :
    buildChannelConfigurations params groups =
      .ok (groups.map (fun g =>
        ⟨toUint16 ((resolvePort params g).getD 0), g⟩)) := by
  induction groups with
  | nil => rfl
  | cons g rest ih =>
    obtain ⟨v, hv⟩ := Option.isSome_iff_exists.mp (h g (by simp))
    have hrest := ih (fun x hx => h x (by simp [hx]))
    simp [buildChannelConfigurations, hv, hrest, Except.map]

theorem buildChannelConfigurations_error (params : ParamMap) :
    ∀ (pre : List MechanicalUnitsGroup) (gbad : MechanicalUnitsGroup)
      (post : List MechanicalUnitsGroup),
      (∀ g ∈ pre, (resolvePort params g).isSome) →
      resolvePort params gbad = none →
      buildChannelConfigurations params (pre ++ gbad :: post) =
        .error gbad.name := by
  intro pre
  induction pre with
  | nil =>
    intro gbad post _ hbad
    simp [buildChannelConfigurations, hbad]
  | cons g pre' ih =>
    intro gbad post hpre hbad
    obtain ⟨v, hv⟩ := Option.isSome_iff_exists.mp (hpre g (by simp))
    simp [buildChannelConfigurations, hv,
      ih gbad post (fun x hx => hpre x (by simp [hx])) hbad, Except.map]

/-- **C8 (amended).** One ChannelConfiguration per mechanical-units group,
in description order, with port equal to the integer parse of the
`<group_name>egm_port` hardware parameter reduced modulo 2^16 (the
`static_cast<uint16_t>`); if that parameter is absent or unparsable for
some group, the build fails naming the first such group (the caught
`std::invalid_argument` becomes a fatal `ERROR`, not retried). -/
theorem c8_channel_configurations (params : ParamMap)
    (groups : List MechanicalUnitsGroup) :
    ((∀ g ∈ groups, (resolvePort params g).isSome) →
      buildChannelConfigurations params groups =
        .ok (groups.map (fun g =>
          ⟨toUint16 ((resolvePort params g).getD 0), g⟩))) ∧
    (∀ (pre : List MechanicalUnitsGroup) (gbad : MechanicalUnitsGroup)
        (post : List MechanicalUnitsGroup),
      groups = pre ++ gbad :: post →
      (∀ g ∈ pre, (resolvePort params g).isSome) →
      resolvePort params gbad = none →
      buildChannelConfigurations params groups = .error gbad.name) := by
  constructor
  · exact buildChannelConfigurations_ok params groups
  · intro pre gbad post heq hpre hbad
    rw [heq]
    exact buildChannelConfigurations_error params pre gbad post hpre hbad

def grpArm : MechanicalUnitsGroup :=
  ⟨"arm".data, ⟨.TCP_ROBOT, 1, .ACTIVATED, []⟩⟩

theorem c8_witness :
    buildChannelConfigurations
      [(("arm".data ++ egmPortSuffix), "6511".data)] [grpArm] =
      .ok [⟨6511, grpArm⟩] := by
  rw [(c8_channel_configurations
    [(("arm".data ++ egmPortSuffix), "6511".data)] [grpArm]).1 (by decide)]
  decide

/-! ## C10: substring search and name normalization -/

theorem leadsWith_iff (pat : Str) :
    ∀ s : Str, leadsWith pat s = true ↔ ∃ t, s = pat ++ t := by
  induction pat with
  | nil => intro s; simp [leadsWith]
  | cons p ps ih =>
    intro s
    cases s with
    | nil =>
      simp only [leadsWith]
      constructor
      · intro hc; cases hc
      · rintro ⟨t, ht⟩; cases ht
    | cons c cs =>
      simp only [leadsWith, Bool.and_eq_true, decide_eq_true_eq, ih]
      constructor
      · rintro ⟨rfl, t, rfl⟩
        exact ⟨t, rfl⟩
      · rintro ⟨t, ht⟩
        injection ht with h1 h2
        exact ⟨h1.symm, t, h2⟩

theorem strFindAux_none (pat : Str) :
    ∀ (s : Str) (i : Nat), strFindAux pat s i = none →
      ∀ k, leadsWith pat (s.drop k) = false := by
  intro s
  induction s with
  | nil =>
    intro i h k
    simp only [strFindAux] at h
    by_cases hl : leadsWith pat []
    · rw [if_pos hl] at h; cases h
    · simpa using Bool.eq_false_iff.mpr hl
  | cons c cs ih =>
    intro i h k
    simp only [strFindAux] at h
    by_cases hl : leadsWith pat (c :: cs)
    · rw [if_pos hl] at h; cases h
    · rw [if_neg hl] at h
      cases k with
      | zero => exact Bool.eq_false_iff.mpr hl
      | succ k' => exact ih (i + 1) h k'

theorem strFindAux_some (pat : Str) :
    ∀ (s : Str) (i r : Nat), strFindAux pat s i = some r →
      i ≤ r ∧ leadsWith pat (s.drop (r - i)) = true ∧
        ∀ k, k < r - i → leadsWith pat (s.drop k) = false := by
  intro s
  induction s with
  | nil =>
    intro i r h
    simp only [strFindAux] at h
    by_cases hl : leadsWith pat []
    · rw [if_pos hl] at h
      injection h with h'
      subst h'
      refine ⟨Nat.le_refl _, ?_, ?_⟩
      · simpa [Nat.sub_self] using hl
      · intro k hk; omega
    · rw [if_neg hl] at h; cases h
  | cons c cs ih =>
    intro i r h
    simp only [strFindAux] at h
    by_cases hl : leadsWith pat (c :: cs)
    · rw [if_pos hl] at h
      injection h with h'
      subst h'
      refine ⟨Nat.le_refl _, ?_, ?_⟩
      · simpa [Nat.sub_self] using hl
      · intro k hk; omega
    · rw [if_neg hl] at h
      obtain ⟨h1, h2, h3⟩ := ih (i + 1) r h
      refine ⟨by omega, ?_, ?_⟩
      · have : r - i = (r - (i + 1)) + 1 := by omega
        rw [this]
        simpa using h2
      · intro k hk
        cases k with
        | zero => exact Bool.eq_false_iff.mpr hl
        | succ k' =>
          have : k' < r - (i + 1) := by omega
          simpa using h3 k' this

theorem strFind_some_spec (pat s : Str) (r : Nat)
    (h : strFind pat s = some r) :
    leadsWith pat (s.drop r) = true ∧
      ∀ k, k < r → leadsWith pat (s.drop k) = false := by
  obtain ⟨_, h2, h3⟩ := strFindAux_some pat s 0 r h
  rw [Nat.sub_zero] at h2 h3
  exact ⟨h2, h3⟩

theorem strFind_none_no_occurrence (pat s : Str)
    (h : strFind pat s = none) : ¬∃ p q, s = p ++ pat ++ q := by
  rintro ⟨p, q, rfl⟩
  have hk := strFindAux_none pat _ 0 h p.length
  rw [List.append_assoc, List.drop_left] at hk
  rw [(leadsWith_iff pat (pat ++ q)).mpr ⟨q, rfl⟩] at hk
  cases hk

theorem normalizeJointName_some_occurrence (name r : Str)
    (h : normalizeJointName name = some r) :
    ∃ p q, name = p ++ markerLit ++ q := by
  unfold normalizeJointName at h
  cases hf : strFind markerLit name with
  | none => rw [hf] at h; cases h
  | some pos =>
    obtain ⟨hlead, _⟩ := strFind_some_spec markerLit name pos hf
    obtain ⟨t, ht⟩ := (leadsWith_iff markerLit _).mp hlead
    exact ⟨name.take pos, t, by
      rw [List.append_assoc, ← ht, List.take_append_drop]⟩

theorem exportJointsFrom_names (f1 f2 : FieldSel) (g u : Nat) :
    ∀ (js : List JointMotionData) (j0 : Nat) (hs : List Handle),
      exportJointsFrom f1 f2 g u j0 js = some hs →
      ∀ jd ∈ js, (normalizeJointName jd.name).isSome := by
  intro js
  induction js with
  | nil => intro j0 hs h jd hjd; simp at hjd
  | cons jd' rest ih =>
    intro j0 hs h jd hjd
    simp only [exportJointsFrom] at h
    cases hn : normalizeJointName jd'.name with
    | none => rw [hn] at h; cases h
    | some nm =>
      rw [hn] at h
      rcases List.mem_cons.mp hjd with rfl | hjd'
      · simp [hn]
      · cases hrest : exportJointsFrom f1 f2 g u (j0 + 1) rest with
        | none => rw [hrest] at h; cases h
        | some hs' => exact ih (j0 + 1) hs' hrest jd hjd'

theorem exportUnitsFrom_names (f1 f2 : FieldSel) (g : Nat) :
    ∀ (us : List UnitMotionData) (u0 : Nat) (hs : List Handle),
      exportUnitsFrom f1 f2 g u0 us = some hs →
      ∀ un ∈ us, ∀ jd ∈ un.joints, (normalizeJointName jd.name).isSome := by
  intro us
  induction us with
  | nil => intro u0 hs h un hun; simp at hun
  | cons un' rest ih =>
    intro u0 hs h un hun
    simp only [exportUnitsFrom] at h
    cases hj : exportJointsFrom f1 f2 g u0 0 un'.joints with
    | none => rw [hj] at h; cases h
    | some hs1 =>
      rw [hj] at h
      rcases List.mem_cons.mp hun with rfl | hun'
      · exact exportJointsFrom_names f1 f2 g u0 un.joints 0 hs1 hj
      · cases hrest : exportUnitsFrom f1 f2 g (u0 + 1) rest with
        | none => rw [hrest] at h; cases h
        | some hs2 => exact ih (u0 + 1) hs2 hrest un hun'

theorem exportGroupsFrom_names (f1 f2 : FieldSel) :
    ∀ (gs : List GroupMotionData) (g0 : Nat) (hs : List Handle),
      exportGroupsFrom f1 f2 g0 gs = some hs →
      ∀ gr ∈ gs, ∀ un ∈ gr.units, ∀ jd ∈ un.joints,
        (normalizeJointName jd.name).isSome := by
  intro gs
  induction gs with
  | nil => intro g0 hs h gr hgr; simp at hgr
  | cons gr' rest ih =>
    intro g0 hs h gr hgr
    simp only [exportGroupsFrom] at h
    cases hu : exportUnitsFrom f1 f2 g0 0 gr'.units with
    | none => rw [hu] at h; cases h
    | some hs1 =>
      rw [hu] at h
      rcases List.mem_cons.mp hgr with rfl | hgr'
      · exact exportUnitsFrom_names f1 f2 g0 gr.units 0 hs1 hu
      · cases hrest : exportGroupsFrom f1 f2 (g0 + 1) rest with
        | none => rw [hrest] at h; cases h
        | some hs2 => exact ih (g0 + 1) hs2 hrest gr hgr'

/-- **C10.** Both export paths normalize a joint name with
`name.substr(name.find("joint"))`. The normalization (a) fails (the
`std::out_of_range` branch) exactly on names with no occurrence of the
marker `"joint"`; (b) on success returns the suffix of the raw name that
starts at the first occurrence of the marker; (c) keeps the full name when
no prefix precedes the marker; (d) the export operation therefore succeeds
only when every joint name in the mirror contains the marker, and (e) its
error branch is reachable: a mirror with a marker-free joint name makes
the export fail. -/
theorem c10_name_normalization :
    (∀ name : Str, (¬∃ p q, name = p ++ markerLit ++ q) →
      normalizeJointName name = none) ∧
    (∀ (name r : Str), normalizeJointName name = some r →
      ∃ p, name = p ++ r ∧ (∃ t, r = markerLit ++ t) ∧
        ∀ p' q', name = p' ++ markerLit ++ q' → p.length ≤ p'.length) ∧
    (∀ name : Str, (∃ t, name = markerLit ++ t) →
      normalizeJointName name = some name) ∧
    (∀ (md : MotionData) (hs : List Handle),
      export_state_interfaces md = some hs →
      ∀ j ∈ md.allJoints, ∃ p q, j.name = p ++ markerLit ++ q) ∧
    (∃ md : MotionData, md.allJoints ≠ [] ∧
      export_state_interfaces md = none) := by
  refine ⟨?_, ?_, ?_, ?_, ?_⟩
  · intro name hno
    unfold normalizeJointName
    cases hf : strFind markerLit name with
    | none => rfl
    | some r =>
      exact absurd (normalizeJointName_some_occurrence name (name.drop r)
        (by simp [normalizeJointName, hf])) hno
  · intro name r h
    unfold normalizeJointName at h
    cases hf : strFind markerLit name with
    | none => rw [hf] at h; cases h
    | some pos =>
      rw [hf] at h
      injection h with h'
      subst h'
      obtain ⟨hlead, hmin⟩ := strFind_some_spec markerLit name pos hf
      obtain ⟨t, ht⟩ := (leadsWith_iff markerLit _).mp hlead
      refine ⟨name.take pos, (List.take_append_drop pos name).symm,
        ⟨t, ht⟩, ?_⟩
      intro p' q' hpq
      by_contra hlt
      push_neg at hlt
      have hlen : (name.take pos).length ≤ pos := by
        rw [List.length_take]
        exact Nat.min_le_left _ _
      have hk : p'.length < pos := lt_of_lt_of_le hlt hlen
      have hfalse := hmin p'.length hk
      rw [hpq, List.append_assoc, List.drop_left] at hfalse
      rw [(leadsWith_iff markerLit _).mpr ⟨q', rfl⟩] at hfalse
      cases hfalse
  · rintro name ⟨t, ht⟩
    have hlead : leadsWith markerLit name = true :=
      (leadsWith_iff markerLit name).mpr ⟨t, ht⟩
    have hf : strFind markerLit name = some 0 := by
      cases name with
      | nil => simp [strFind, strFindAux, hlead]
      | cons c cs => simp [strFind, strFindAux, hlead]
    simp [normalizeJointName, hf]
  · intro md hs h j hj
    simp only [MotionData.allJoints, List.mem_flatMap] at hj
    obtain ⟨gr, hgr, un, hun, hj3⟩ := hj
    have hsome := exportGroupsFrom_names .statePos .stateVel md.groups 0 hs h
      gr hgr un hun j hj3
    obtain ⟨r, hr⟩ := Option.isSome_iff_exists.mp hsome
    exact normalizeJointName_some_occurrence j.name r hr
  · exact ⟨⟨[⟨[⟨[⟨"elbow".data, ⟨0, 0⟩, ⟨0, 0⟩⟩]⟩]⟩]⟩, by decide, by decide⟩

theorem c10_witness :
    normalizeJointName ("jointsix".data) = some ("jointsix".data) :=
  c10_name_normalization.2.2.1 _ ⟨"six".data, by decide⟩

/-! ## C9: exported handles bind real, stable storage locations -/

theorem setAt_get?_eq {α : Type} (f : α → α) :
    ∀ (l : List α) (i : Nat), (setAt l i f).get? i = (l.get? i).map f := by
  intro l
  induction l with
  | nil => intro i; cases i <;> rfl
  | cons x xs ih =>
    intro i
    cases i with
    | zero => rfl
    | succ i' => simpa [setAt] using ih i'

/-- Writing through a valid location and reading it back through the same
location (the model of mutating through one exported raw pointer and
observing through another binding of the same address). -/
theorem readLoc_writeLoc_same (md : MotionData) (l : Loc) (v : ℚ)
    (h : (readLoc md l).isSome) :
    readLoc (writeLoc md l v) l = some v := by
  obtain ⟨lg, lu, lj, lf⟩ := l
  unfold readLoc at h
  split at h
  · cases h
  · rename_i gr hg
    split at h
    · cases h
    · rename_i un hu
      split at h
      · cases h
      · rename_i jd hj
        cases lf <;>
          simp only [readLoc, writeLoc, setAt_get?_eq, hg, hu, hj,
            Option.map_some', setField]

theorem exportJointsFrom_valid (md : MotionData) (gr : GroupMotionData)
    (un : UnitMotionData) (g u : Nat) (f1 f2 : FieldSel)
    (hg : md.groups.get? g = some gr) (hu : gr.units.get? u = some un) :
    ∀ (js : List JointMotionData) (j0 : Nat) (hs : List Handle),
      (∀ k, js.get? k = un.joints.get? (j0 + k)) →
      exportJointsFrom f1 f2 g u j0 js = some hs →
      ∀ hd ∈ hs, (readLoc md hd.loc).isSome := by
  intro js
  induction js with
  | nil =>
    intro j0 hs _ h hd hhd
    injection h with h'
    subst h'
    simp at hhd
  | cons jd rest ih =>
    intro j0 hs hidx h hd hhd
    simp only [exportJointsFrom] at h
    cases hn : normalizeJointName jd.name with
    | none => rw [hn] at h; cases h
    | some nm =>
      rw [hn] at h
      cases hrest : exportJointsFrom f1 f2 g u (j0 + 1) rest with
      | none => rw [hrest] at h; cases h
      | some hs' =>
        rw [hrest] at h
        simp only [Option.map_some] at h
        injection h with h'
        subst h'
        have hj : un.joints.get? j0 = some jd := by
          simpa using (hidx 0).symm
        rcases List.mem_cons.mp hhd with rfl | hhd1
        · simp only [readLoc, hg, hu, hj, Option.isSome_some]
        · rcases List.mem_cons.mp hhd1 with rfl | hhd2
          · simp only [readLoc, hg, hu, hj, Option.isSome_some]
          · refine ih (j0 + 1) hs' (fun k => ?_) hrest hd hhd2
            have h' := hidx (k + 1)
            simp only [List.get?_cons_succ] at h'
            have harith : j0 + (k + 1) = j0 + 1 + k := by omega
            rw [harith] at h'
            exact h'

theorem exportUnitsFrom_valid (md : MotionData) (gr : GroupMotionData)
    (g : Nat) (f1 f2 : FieldSel)
    (hg : md.groups.get? g = some gr) :
    ∀ (us : List UnitMotionData) (u0 : Nat) (hs : List Handle),
      (∀ k, us.get? k = gr.units.get? (u0 + k)) →
      exportUnitsFrom f1 f2 g u0 us = some hs →
      ∀ hd ∈ hs, (readLoc md hd.loc).isSome := by
  intro us
  induction us with
  | nil =>
    intro u0 hs _ h hd hhd
    injection h with h'
    subst h'
    simp at hhd
  | cons un rest ih =>
    intro u0 hs hidx h hd hhd
    simp only [exportUnitsFrom] at h
    cases hj : exportJointsFrom f1 f2 g u0 0 un.joints with
    | none => rw [hj] at h; cases h
    | some hs1 =>
      rw [hj] at h
      cases hrest : exportUnitsFrom f1 f2 g (u0 + 1) rest with
      | none => rw [hrest] at h; cases h
      | some hs2 =>
        rw [hrest] at h
        simp only [Option.map_some] at h
        injection h with h'
        subst h'
        have hu : gr.units.get? u0 = some un := by
          simpa using (hidx 0).symm
        rcases List.mem_append.mp hhd with hhd1 | hhd2
        · exact exportJointsFrom_valid md gr un g u0 f1 f2 hg hu un.joints 0
            hs1 (fun k => by simp) hj hd hhd1
        · refine ih (u0 + 1) hs2 (fun k => ?_) hrest hd hhd2
          have h' := hidx (k + 1)
          simp only [List.get?_cons_succ] at h'
          have harith : u0 + (k + 1) = u0 + 1 + k := by omega
          rw [harith] at h'
          exact h'

theorem exportGroupsFrom_valid (md : MotionData) (f1 f2 : FieldSel) :
    ∀ (gs : List GroupMotionData) (g0 : Nat) (hs : List Handle),
      (∀ k, gs.get? k = md.groups.get? (g0 + k)) →
      exportGroupsFrom f1 f2 g0 gs = some hs →
      ∀ hd ∈ hs, (readLoc md hd.loc).isSome := by
  intro gs
  induction gs with
  | nil =>
    intro g0 hs _ h hd hhd
    injection h with h'
    subst h'
    simp at hhd
  | cons gr rest ih =>
    intro g0 hs hidx h hd hhd
    simp only [exportGroupsFrom] at h
    cases hu : exportUnitsFrom f1 f2 g0 0 gr.units with
    | none => rw [hu] at h; cases h
    | some hs1 =>
      rw [hu] at h
      cases hrest : exportGroupsFrom f1 f2 (g0 + 1) rest with
      | none => rw [hrest] at h; cases h
      | some hs2 =>
        rw [hrest] at h
        simp only [Option.map_some] at h
        injection h with h'
        subst h'
        have hg : md.groups.get? g0 = some gr := by
          simpa using (hidx 0).symm
        rcases List.mem_append.mp hhd with hhd1 | hhd2
        · exact exportUnitsFrom_valid md gr g0 f1 f2 hg gr.units 0 hs1
            (fun k => by simp) hu hd hhd1
        · refine ih (g0 + 1) hs2 (fun k => ?_) hrest hd hhd2
          have h' := hidx (k + 1)
          simp only [List.get?_cons_succ] at h'
          have harith : g0 + (k + 1) = g0 + 1 + k := by omega
          rw [harith] at h'
          exact h'

/-- **C9.** Export is idempotent on an unchanged instance: both export
paths are functions of the instance's motion data only, so a second call
returns exactly the same (joint name, interface kind, location) bindings;
and every exported binding addresses real storage inside the mirror, so a
value written through a binding of one call is read back through the
corresponding binding of the other call. -/
theorem c9_export_idempotent (md : MotionData) (hs cs : List Handle)
    (h1 : export_state_interfaces md = some hs)
    (h2 : export_command_interfaces md = some cs) :
    export_state_interfaces md = some hs ∧
    export_command_interfaces md = some cs ∧
    (∀ hd ∈ hs, ∀ v : ℚ, readLoc (writeLoc md hd.loc v) hd.loc = some v) ∧
    (∀ hd ∈ cs, ∀ v : ℚ, readLoc (writeLoc md hd.loc v) hd.loc = some v) := by
  refine ⟨h1, h2, ?_, ?_⟩
  · intro hd hhd v
    exact readLoc_writeLoc_same md hd.loc v
      (exportGroupsFrom_valid md .statePos .stateVel md.groups 0 hs
        (fun k => by simp) h1 hd hhd)
  · intro hd hhd v
    exact readLoc_writeLoc_same md hd.loc v
      (exportGroupsFrom_valid md .cmdPos .cmdVel md.groups 0 cs
        (fun k => by simp) h2 hd hhd)

/-- Mirror with one joint (name contains the marker, so export
succeeds). -/
def mdW9 : MotionData :=
  ⟨[⟨[⟨[⟨"joint1".data, ⟨1, 2⟩, ⟨3, 4⟩⟩]⟩]⟩]⟩

theorem c9_witness :
    readLoc (writeLoc mdW9 ⟨0, 0, 0, .statePos⟩ 5) ⟨0, 0, 0, .statePos⟩ =
      some 5 :=
  (c9_export_idempotent mdW9
      [⟨"joint1".data, HW_IF_POSITION, ⟨0, 0, 0, .statePos⟩⟩,
       ⟨"joint1".data, HW_IF_VELOCITY, ⟨0, 0, 0, .stateVel⟩⟩]
      [⟨"joint1".data, HW_IF_POSITION, ⟨0, 0, 0, .cmdPos⟩⟩,
       ⟨"joint1".data, HW_IF_VELOCITY, ⟨0, 0, 0, .cmdVel⟩⟩]
      (by decide) (by decide)).2.2.1
    ⟨"joint1".data, HW_IF_POSITION, ⟨0, 0, 0, .statePos⟩⟩ (by decide) 5

end AbbHw
